import Mathlib

/-!
Verification of the OptiRoute risk engine against its specification.

The repository's algorithmic core lives in `backend/flood_risk.py` and
`backend/main.py`, which are documented in `IMPLEMENTATION_REFERENCE.md`
and the core-logic design document.  The risk functions below are shallow
embeddings of that engine over the reals; the wire-level data shapes are
embedded from `frontend/src/types.ts`.
-/

open Real

namespace OptiRoute

/-- A geographic coordinate, as in `LatLng` of `frontend/src/types.ts`. -/
@[ext] structure LatLng where
  lat : ℝ
  lng : ℝ

/-- A waterlogging pivot record from `backend/data/flood_pivots.csv`:
coordinates, a severity in `[0,1]` (clamped at load time), and a name. -/
structure Pivot where
  lat : ℝ
  lng : ℝ
  severity : ℝ
  name : String

/-- The location of a pivot as a `LatLng`. -/
def Pivot.loc (pv : Pivot) : LatLng := ⟨pv.lat, pv.lng⟩

/-- A rainfall sample: coordinates plus 24-hour accumulated precipitation. -/
structure RainfallSample where
  lat : ℝ
  lng : ℝ
  accumulated_mm : ℝ

/-- The location of a rainfall sample as a `LatLng`. -/
def RainfallSample.loc (s : RainfallSample) : LatLng := ⟨s.lat, s.lng⟩

/-- Modelled from the spec: `backend/flood_risk.py` is not under `src/`;
this is the standard haversine great-circle distance in kilometres that
the design document calls `d(x, pivot_i)` ("haversine distance in km"). -/
noncomputable def haversine_km (a b : LatLng) : ℝ :=
  let phi1 := a.lat * π / 180
  let phi2 := b.lat * π / 180
  let dphi := (b.lat - a.lat) * π / 180
  let dlam := (b.lng - a.lng) * π / 180
  let h := Real.sin (dphi / 2) ^ 2 +
    Real.cos phi1 * Real.cos phi2 * Real.sin (dlam / 2) ^ 2
  2 * 6371 * Real.arcsin (Real.sqrt h)

/-- `SPREAD_FACTOR_KM = 2.0`, the decay constant of `backend/flood_risk.py`. -/
noncomputable def SPREAD_FACTOR_KM : ℝ := 2

/-- The decay contribution of one pivot to the preference at `x`:
`severity_i * exp (-d(x, pivot_i) / SPREAD_FACTOR_KM)`. -/
noncomputable def pivot_contrib (x : LatLng) (pv : Pivot) : ℝ :=
  pv.severity * Real.exp (-(haversine_km x pv.loc) / SPREAD_FACTOR_KM)

/-- Modelled from the spec: `_preference_map_at_point` of
`backend/flood_risk.py` is not under `src/`; per §4.1 the preference is the
maximum pivot contribution, `0` for the empty pivot set, realised here as a
fold of `max` with initial value `0`. -/
noncomputable def preference (pivots : List Pivot) (x : LatLng) : ℝ :=
  pivots.foldr (fun pv acc => max (pivot_contrib x pv) acc) 0

/-- Modelled from the spec: `_rainfall_factor` of `backend/flood_risk.py` is
not under `src/`; reconstructed from §4.2 and the snippet quoted in
`IMPLEMENTATION_REFERENCE.md` (`normalized = min(rainfall_24h_mm / 100.0, 1.0)`
feeding the exponent `0.6` curve, with a dry-weather floor of `0.1`). -/
noncomputable def rainfall_factor (rainfall_mm : ℝ) : ℝ :=
  if rainfall_mm = 0 then 0.1
  else 0.1 + 0.9 * (min (rainfall_mm / 100) 1) ^ (0.6 : ℝ)

/-! ### Basic facts about the distance kernel -/

theorem haversine_km_self (a : LatLng) : haversine_km a a = 0 := by
  simp [haversine_km]

theorem haversine_km_nonneg (a b : LatLng) : 0 ≤ haversine_km a b := by
  have h1 : 0 ≤ Real.arcsin (Real.sqrt
      (Real.sin ((b.lat - a.lat) * π / 180 / 2) ^ 2 +
        Real.cos (a.lat * π / 180) * Real.cos (b.lat * π / 180) *
          Real.sin ((b.lng - a.lng) * π / 180 / 2) ^ 2)) :=
    Real.arcsin_nonneg.mpr (Real.sqrt_nonneg _)
  have h2 : (0:ℝ) ≤ 2 * 6371 := by norm_num
  simp only [haversine_km]
  exact mul_nonneg h2 h1

theorem pivot_contrib_nonneg (x : LatLng) (pv : Pivot) (h : 0 ≤ pv.severity) :
    0 ≤ pivot_contrib x pv :=
  mul_nonneg h (Real.exp_pos _).le

theorem pivot_contrib_le_severity (x : LatLng) (pv : Pivot)
    (h : 0 ≤ pv.severity) : pivot_contrib x pv ≤ pv.severity := by
  have hexp : Real.exp (-(haversine_km x pv.loc) / SPREAD_FACTOR_KM) ≤ 1 := by
    rw [show (1:ℝ) = Real.exp 0 by simp, Real.exp_le_exp]
    have hd := haversine_km_nonneg x pv.loc
    have hs : (0:ℝ) < SPREAD_FACTOR_KM := by norm_num [SPREAD_FACTOR_KM]
    have : -(haversine_km x pv.loc) ≤ 0 := by linarith
    exact div_nonpos_of_nonpos_of_nonneg this hs.le
  calc pivot_contrib x pv
      = pv.severity * Real.exp (-(haversine_km x pv.loc) / SPREAD_FACTOR_KM) := rfl
    _ ≤ pv.severity * 1 := by
        exact mul_le_mul_of_nonneg_left hexp h
    _ = pv.severity := mul_one _

/-! ### Basic facts about the preference surface -/

theorem preference_nil (x : LatLng) : preference [] x = 0 := rfl

theorem preference_cons (pv : Pivot) (l : List Pivot) (x : LatLng) :
    preference (pv :: l) x = max (pivot_contrib x pv) (preference l x) := rfl

theorem preference_nonneg (pivots : List Pivot) (x : LatLng) :
    0 ≤ preference pivots x := by
  induction pivots with
  | nil => simp [preference_nil]
  | cons pv l ih =>
      rw [preference_cons]
      exact le_trans ih (le_max_right _ _)

theorem pivot_contrib_le_preference (pivots : List Pivot) (x : LatLng)
    (pv : Pivot) (hpv : pv ∈ pivots) :
    pivot_contrib x pv ≤ preference pivots x := by
  induction pivots with
  | nil => cases hpv
  | cons q l ih =>
      rw [preference_cons]
      rcases List.mem_cons.mp hpv with h | h
      · subst h; exact le_max_left _ _
      · exact le_trans (ih h) (le_max_right _ _)

theorem preference_le (pivots : List Pivot) (x : LatLng) (c : ℝ)
    (hc : 0 ≤ c) (h : ∀ pv ∈ pivots, pivot_contrib x pv ≤ c) :
    preference pivots x ≤ c := by
  induction pivots with
  | nil => simpa [preference_nil] using hc
  | cons q l ih =>
      rw [preference_cons]
      exact max_le (h q (List.mem_cons_self q l))
        (ih fun pv hpv => h pv (List.mem_cons_of_mem q hpv))

theorem preference_attained (pivots : List Pivot) (x : LatLng)
    (hne : pivots ≠ [])
    (hsev : ∀ pv ∈ pivots, 0 ≤ pv.severity) :
    ∃ pv ∈ pivots, preference pivots x = pivot_contrib x pv := by
  induction pivots with
  | nil => exact absurd rfl hne
  | cons q l ih =>
      rcases List.eq_nil_or_concat l with hl | _
      · subst hl
        refine ⟨q, List.mem_cons_self q [], ?_⟩
        rw [preference_cons, preference_nil]
        exact max_eq_left (pivot_contrib_nonneg x q
          (hsev q (List.mem_cons_self q [])))
      · have hlne : l ≠ [] := by
          rintro rfl
          rename_i hcat
          rcases hcat with ⟨l', a, h⟩
          exact (List.concat_ne_nil a l') h.symm
        obtain ⟨pv, hpv, hEq⟩ := ih hlne
          (fun pv hpv => hsev pv (List.mem_cons_of_mem q hpv))
        rw [preference_cons]
        rcases max_cases (pivot_contrib x q) (preference l x) with ⟨h1, _⟩ | ⟨h1, _⟩
        · exact ⟨q, List.mem_cons_self q l, h1⟩
        · exact ⟨pv, List.mem_cons_of_mem q hpv, by rw [h1, hEq]⟩

/-! ### Basic facts about the rainfall factor -/

theorem rainfall_factor_zero : rainfall_factor 0 = 0.1 := by
  simp [rainfall_factor]

theorem rainfall_factor_pos_eq (mm : ℝ) (h : 0 < mm) :
    rainfall_factor mm = 0.1 + 0.9 * (min (mm / 100) 1) ^ (0.6 : ℝ) := by
  rw [rainfall_factor, if_neg (ne_of_gt h)]

theorem rainfall_factor_ge (mm : ℝ) (h : 0 ≤ mm) : 0.1 ≤ rainfall_factor mm := by
  rcases eq_or_lt_of_le h with h0 | h0
  · rw [← h0, rainfall_factor_zero]
  · rw [rainfall_factor_pos_eq mm h0]
    have hb : (0:ℝ) ≤ min (mm / 100) 1 :=
      le_min (by positivity) (by norm_num)
    have := Real.rpow_nonneg hb (0.6 : ℝ)
    nlinarith

theorem rainfall_factor_le_one (mm : ℝ) (h : 0 ≤ mm) : rainfall_factor mm ≤ 1 := by
  rcases eq_or_lt_of_le h with h0 | h0
  · rw [← h0, rainfall_factor_zero]; norm_num
  · rw [rainfall_factor_pos_eq mm h0]
    have hb : (0:ℝ) ≤ min (mm / 100) 1 := le_min (by positivity) (by norm_num)
    have h1 : (min (mm / 100) 1 : ℝ) ≤ 1 := min_le_right _ _
    have := Real.rpow_le_one hb h1 (by norm_num : (0:ℝ) ≤ 0.6)
    nlinarith

theorem rainfall_factor_hundred : rainfall_factor 100 = 1 := by
  rw [rainfall_factor_pos_eq 100 (by norm_num)]
  have : min ((100:ℝ) / 100) 1 = 1 := by norm_num
  rw [this, Real.one_rpow]
  norm_num

theorem rainfall_factor_saturates (mm : ℝ) (h : 100 ≤ mm) :
    rainfall_factor mm = 1 := by
  rw [rainfall_factor_pos_eq mm (by linarith)]
  have : min (mm / 100) 1 = 1 := min_eq_right (by linarith)
  rw [this, Real.one_rpow]
  norm_num

theorem rainfall_factor_mono (a b : ℝ) (ha : 0 ≤ a) (hab : a ≤ b) :
    rainfall_factor a ≤ rainfall_factor b := by
  rcases eq_or_lt_of_le ha with h0 | h0
  · rw [← h0, rainfall_factor_zero]
    exact rainfall_factor_ge b (by linarith)
  · rw [rainfall_factor_pos_eq a h0, rainfall_factor_pos_eq b (by linarith)]
    have hmin0 : (0:ℝ) ≤ min (a / 100) 1 := le_min (by positivity) (by norm_num)
    have hminle : min (a / 100) 1 ≤ min (b / 100) 1 :=
      min_le_min (by linarith) (le_refl 1)
    have := Real.rpow_le_rpow hmin0 hminle (by norm_num : (0:ℝ) ≤ 0.6)
    nlinarith

/-! ### Nearest-sample lookup and point risk -/

/-- Modelled from the spec: the nearest-sample scan of
`_assign_rain_to_route` in `backend/main.py` is not under `src/`; per §4.3
a linear scan keeping the strictly nearer sample, so exact ties resolve to
the earlier sample in iteration order. -/
noncomputable def nearest_sample (x : LatLng) :
    RainfallSample → List RainfallSample → RainfallSample
  | best, [] => best
  | best, s :: rest =>
      if haversine_km x s.loc < haversine_km x best.loc
      then nearest_sample x s rest
      else nearest_sample x best rest

/-- Modelled from the spec: `sample_at` per §4.3 returns the accumulated
precipitation of the nearest sample, and `0` for an empty field (§5:
degraded default, missing data is treated as zero accumulation). -/
noncomputable def sample_at (field : List RainfallSample) (x : LatLng) : ℝ :=
  match field with
  | [] => 0
  | s :: rest => (nearest_sample x s rest).accumulated_mm

theorem nearest_sample_mem (x : LatLng) (best : RainfallSample)
    (l : List RainfallSample) :
    nearest_sample x best l = best ∨ nearest_sample x best l ∈ l := by
  induction l generalizing best with
  | nil => left; rfl
  | cons s rest ih =>
      rw [nearest_sample]
      split_ifs with h
      · rcases ih s with h1 | h1
        · right; rw [h1]; exact List.mem_cons_self s rest
        · right; exact List.mem_cons_of_mem s h1
      · rcases ih best with h1 | h1
        · left; exact h1
        · right; exact List.mem_cons_of_mem s h1

theorem sample_at_nonneg (field : List RainfallSample) (x : LatLng)
    (h : ∀ s ∈ field, 0 ≤ s.accumulated_mm) : 0 ≤ sample_at field x := by
  match field with
  | [] => exact le_refl 0
  | s :: rest =>
      rw [sample_at]
      rcases nearest_sample_mem x s rest with h1 | h1
      · rw [h1]; exact h s (List.mem_cons_self s rest)
      · exact h _ (List.mem_cons_of_mem s h1)

/-- Modelled from the spec: `flood_risk_at_point` of `backend/flood_risk.py`
is not under `src/`; per §4.4 and the design document,
`FinalRisk(x) = Preference(x) × RainFactor(rain at x)`. -/
noncomputable def point_risk (pivots : List Pivot)
    (field : List RainfallSample) (x : LatLng) : ℝ :=
  preference pivots x * rainfall_factor (sample_at field x)

theorem preference_le_one (pivots : List Pivot) (x : LatLng)
    (hsev : ∀ pv ∈ pivots, 0 ≤ pv.severity ∧ pv.severity ≤ 1) :
    preference pivots x ≤ 1 := by
  refine preference_le pivots x 1 (by norm_num) fun pv hpv => ?_
  exact le_trans (pivot_contrib_le_severity x pv (hsev pv hpv).1) (hsev pv hpv).2

theorem point_risk_nonneg (pivots : List Pivot) (field : List RainfallSample)
    (x : LatLng) (hmm : ∀ s ∈ field, 0 ≤ s.accumulated_mm) :
    0 ≤ point_risk pivots field x := by
  have h1 := preference_nonneg pivots x
  have h2 : 0.1 ≤ rainfall_factor (sample_at field x) :=
    rainfall_factor_ge _ (sample_at_nonneg field x hmm)
  have : (0:ℝ) ≤ rainfall_factor (sample_at field x) := by linarith
  exact mul_nonneg h1 this

theorem point_risk_le_one (pivots : List Pivot) (field : List RainfallSample)
    (x : LatLng) (hsev : ∀ pv ∈ pivots, 0 ≤ pv.severity ∧ pv.severity ≤ 1)
    (hmm : ∀ s ∈ field, 0 ≤ s.accumulated_mm) :
    point_risk pivots field x ≤ 1 := by
  have hp0 := preference_nonneg pivots x
  have hp1 := preference_le_one pivots x hsev
  have hs0 := sample_at_nonneg field x hmm
  have hr1 := rainfall_factor_le_one (sample_at field x) hs0
  have hr0 : 0.1 ≤ rainfall_factor (sample_at field x) := rainfall_factor_ge _ hs0
  calc point_risk pivots field x
      = preference pivots x * rainfall_factor (sample_at field x) := rfl
    _ ≤ 1 * 1 := mul_le_mul hp1 hr1 (by linarith) (by norm_num)
    _ = 1 := by norm_num

/-! ### Route geometry: arc-length downsampling and route risk -/

/-- Linear interpolation between two coordinates. -/
noncomputable def interp (a b : LatLng) (t : ℝ) : LatLng :=
  ⟨a.lat + t * (b.lat - a.lat), a.lng + t * (b.lng - a.lng)⟩

/-- Total arc length of a polyline (sum of consecutive haversine legs). -/
noncomputable def total_len : List LatLng → ℝ
  | a :: b :: rest => haversine_km a b + total_len (b :: rest)
  | _ => 0

/-- The point of a polyline at arc-length position `s` from its start,
walking segments and interpolating within the segment containing `s`. -/
noncomputable def point_at_arc : List LatLng → ℝ → LatLng
  | [], _ => ⟨0, 0⟩
  | [a], _ => a
  | a :: b :: rest, s =>
      if s ≤ haversine_km a b then interp a b (s / haversine_km a b)
      else point_at_arc (b :: rest) (s - haversine_km a b)

/-- Modelled from the spec: `_sample_route_for_rain` of `backend/main.py` is
not under `src/`; per §4.4 the geometry is reduced to a fixed budget of `n`
evenly-arc-length-spaced points (endpoints included). -/
noncomputable def downsampled (geom : List LatLng) (n : ℕ) : List LatLng :=
  (List.range n).map fun k : ℕ =>
    point_at_arc geom ((k : ℝ) * total_len geom / ((n : ℝ) - 1))

/-- Arithmetic mean of a list of reals. -/
noncomputable def mean (l : List ℝ) : ℝ := l.sum / l.length

/-- Modelled from the spec: `compute_route_risk` of `backend/flood_risk.py`
is not under `src/`; per §4.4 the route risk is the mean point risk over
`downsampled(geometry, 100)`, and `0` for a geometry with zero points. -/
noncomputable def compute_route_risk (pivots : List Pivot)
    (field : List RainfallSample) (geom : List LatLng) : ℝ :=
  match geom with
  | [] => 0
  | g :: gs => mean ((downsampled (g :: gs) 100).map (point_risk pivots field))

theorem interp_same (a : LatLng) (t : ℝ) : interp a a t = a := by
  simp [interp]

theorem interp_zero (a b : LatLng) : interp a b 0 = a := by
  simp [interp]

theorem total_len_cons (a b : LatLng) (rest : List LatLng) :
    total_len (a :: b :: rest) = haversine_km a b + total_len (b :: rest) := rfl

theorem total_len_nonneg (geom : List LatLng) : 0 ≤ total_len geom := by
  match geom with
  | [] => exact le_refl 0
  | [a] => exact le_refl 0
  | a :: b :: rest =>
      rw [total_len_cons]
      have := total_len_nonneg (b :: rest)
      have := haversine_km_nonneg a b
      linarith

theorem total_len_dup (xs : List LatLng) (p : LatLng) (ys : List LatLng) :
    total_len (xs ++ p :: p :: ys) = total_len (xs ++ p :: ys) := by
  induction xs with
  | nil =>
      simp only [List.nil_append]
      rw [total_len_cons, haversine_km_self]
      ring
  | cons x xs ih =>
      match xs with
      | [] =>
          simp only [List.nil_append] at ih
          simp only [List.cons_append, List.nil_append]
          rw [total_len_cons x p (p :: ys), total_len_cons x p ys, ih]
      | z :: zs =>
          simp only [List.cons_append] at ih
          simp only [List.cons_append]
          rw [total_len_cons x z (zs ++ p :: p :: ys),
            total_len_cons x z (zs ++ p :: ys), ih]

theorem point_at_arc_cons (a b : LatLng) (rest : List LatLng) (s : ℝ) :
    point_at_arc (a :: b :: rest) s =
      if s ≤ haversine_km a b then interp a b (s / haversine_km a b)
      else point_at_arc (b :: rest) (s - haversine_km a b) := rfl

theorem point_at_arc_single_dup (p : LatLng) (ys : List LatLng) (s : ℝ)
    (hs : 0 ≤ s) :
    point_at_arc (p :: p :: ys) s = point_at_arc (p :: ys) s := by
  rw [point_at_arc_cons, haversine_km_self]
  split_ifs with h
  · have hs0 : s = 0 := le_antisymm h hs
    subst hs0
    rw [interp_same]
    match ys with
    | [] => rfl
    | y :: ys' =>
        rw [point_at_arc_cons]
        split_ifs with h2
        · simp [interp_zero]
        · exfalso; exact h2 (by simpa using haversine_km_nonneg p y)
  · rw [sub_zero]

theorem point_at_arc_dup (xs : List LatLng) (p : LatLng) (ys : List LatLng)
    (s : ℝ) (hs : 0 ≤ s) :
    point_at_arc (xs ++ p :: p :: ys) s = point_at_arc (xs ++ p :: ys) s := by
  induction xs generalizing s with
  | nil =>
      simp only [List.nil_append]
      exact point_at_arc_single_dup p ys s hs
  | cons x xs ih =>
      match xs with
      | [] =>
          simp only [List.cons_append, List.nil_append]
          rw [point_at_arc_cons x p (p :: ys) s, point_at_arc_cons x p ys s]
          split_ifs with h
          · rfl
          · have h2 : 0 ≤ s - haversine_km x p := by
              have := haversine_km_nonneg x p
              push_neg at h
              linarith
            exact point_at_arc_single_dup p ys _ h2
      | z :: zs =>
          simp only [List.cons_append] at ih
          simp only [List.cons_append]
          rw [point_at_arc_cons x z (zs ++ p :: p :: ys) s,
            point_at_arc_cons x z (zs ++ p :: ys) s]
          split_ifs with h
          · rfl
          · have h2 : 0 ≤ s - haversine_km x z := by
              have := haversine_km_nonneg x z
              push_neg at h
              linarith
            exact ih _ h2

theorem downsampled_dup (xs : List LatLng) (p : LatLng) (ys : List LatLng)
    (n : ℕ) :
    downsampled (xs ++ p :: p :: ys) n = downsampled (xs ++ p :: ys) n := by
  unfold downsampled
  rw [total_len_dup]
  apply List.map_congr_left
  intro k hk
  rcases le_or_lt 0 ((n : ℝ) - 1) with hn | hn
  · refine point_at_arc_dup xs p ys _ ?_
    rcases eq_or_lt_of_le hn with hn0 | hn0
    · rw [← hn0, div_zero]
    · exact div_nonneg (mul_nonneg (Nat.cast_nonneg k) (total_len_nonneg _)) hn
  · have hn1 : n ≤ 1 := by
      by_contra hcon
      push_neg at hcon
      have : (2 : ℝ) ≤ (n : ℝ) := by exact_mod_cast hcon
      linarith
    have hk0 : k = 0 := by
      have := List.mem_range.mp hk
      omega
    subst hk0
    simp only [Nat.cast_zero, zero_mul, zero_div]
    exact point_at_arc_dup xs p ys 0 (le_refl 0)

theorem compute_route_risk_nil (pivots : List Pivot)
    (field : List RainfallSample) : compute_route_risk pivots field [] = 0 := rfl

theorem compute_route_risk_cons (pivots : List Pivot)
    (field : List RainfallSample) (g : LatLng) (gs : List LatLng) :
    compute_route_risk pivots field (g :: gs) =
      mean ((downsampled (g :: gs) 100).map (point_risk pivots field)) := rfl

theorem compute_route_risk_dup (pivots : List Pivot)
    (field : List RainfallSample) (xs : List LatLng) (p : LatLng)
    (ys : List LatLng) :
    compute_route_risk pivots field (xs ++ p :: p :: ys) =
      compute_route_risk pivots field (xs ++ p :: ys) := by
  match xs with
  | [] =>
      simp only [List.nil_append]
      rw [compute_route_risk_cons, compute_route_risk_cons]
      have h := downsampled_dup [] p ys 100
      simp only [List.nil_append] at h
      rw [h]
  | x :: xs =>
      simp only [List.cons_append]
      rw [compute_route_risk_cons, compute_route_risk_cons]
      have h := downsampled_dup (x :: xs) p ys 100
      simp only [List.cons_append] at h
      rw [h]

/-! ### Heatmap grid -/

/-- A bounding box for the heatmap grid (the Mumbai service area in the
backend, kept abstract here). -/
structure BBox where
  lat_min : ℝ
  lat_max : ℝ
  lng_min : ℝ
  lng_max : ℝ

/-- A heatmap point of the wire response, as in `HeatmapPoint` of
`frontend/src/types.ts`: `{lat, lng, intensity}`. -/
structure HeatmapPoint where
  lat : ℝ
  lng : ℝ
  intensity : ℝ

/-- Ascending latitudes of the lattice rows covering the box. -/
noncomputable def grid_lats (bbox : BBox) (spacing : ℝ) : List ℝ :=
  (List.range (Nat.floor ((bbox.lat_max - bbox.lat_min) / spacing) + 1)).map
    fun i : ℕ => bbox.lat_min + (i : ℝ) * spacing

/-- Ascending longitudes of the lattice columns covering the box. -/
noncomputable def grid_lngs (bbox : BBox) (spacing : ℝ) : List ℝ :=
  (List.range (Nat.floor ((bbox.lng_max - bbox.lng_min) / spacing) + 1)).map
    fun j : ℕ => bbox.lng_min + (j : ℝ) * spacing

/-- One lattice cell: the heatmap point at `(la, ln)` when its risk clears
the visibility threshold 0.05, otherwise nothing. -/
noncomputable def grid_cell (pivots : List Pivot) (field : List RainfallSample)
    (la ln : ℝ) : Option HeatmapPoint :=
  if 0.05 < point_risk pivots field ⟨la, ln⟩
  then some ⟨la, ln, point_risk pivots field ⟨la, ln⟩⟩
  else none

/-- Modelled from the spec: `generate_heatmap_points` of
`backend/flood_risk.py` is not under `src/`; per §4.4 every lattice point of
the row-major grid over the box is scored, and only points whose risk
exceeds the visibility threshold 0.05 are emitted. -/
noncomputable def grid_risk (pivots : List Pivot) (field : List RainfallSample)
    (bbox : BBox) (spacing : ℝ) : List HeatmapPoint :=
  (grid_lats bbox spacing).flatMap fun la =>
    (grid_lngs bbox spacing).filterMap fun ln => grid_cell pivots field la ln

/-- Row-major order on heatmap points: ascending latitude, then ascending
longitude. -/
def hm_lt (p q : HeatmapPoint) : Prop :=
  p.lat < q.lat ∨ (p.lat = q.lat ∧ p.lng < q.lng)

theorem grid_cell_some (pivots : List Pivot) (field : List RainfallSample)
    (la ln : ℝ) (hp : HeatmapPoint)
    (h : grid_cell pivots field la ln = some hp) :
    hp.lat = la ∧ hp.lng = ln ∧ hp.intensity = point_risk pivots field ⟨la, ln⟩ ∧
      0.05 < hp.intensity := by
  rw [grid_cell] at h
  split_ifs at h with hcond
  cases h
  exact ⟨rfl, rfl, rfl, hcond⟩

theorem grid_risk_mem (pivots : List Pivot) (field : List RainfallSample)
    (bbox : BBox) (spacing : ℝ) (hp : HeatmapPoint)
    (h : hp ∈ grid_risk pivots field bbox spacing) :
    0.05 < hp.intensity ∧
      hp.intensity = point_risk pivots field ⟨hp.lat, hp.lng⟩ := by
  rw [grid_risk] at h
  obtain ⟨la, _, hmem⟩ := List.mem_flatMap.mp h
  obtain ⟨ln, _, hcell⟩ := List.mem_filterMap.mp hmem
  obtain ⟨h1, h2, h3, h4⟩ := grid_cell_some pivots field la ln hp hcell
  subst h1; subst h2
  exact ⟨h4, h3⟩

theorem grid_lats_sorted (bbox : BBox) (spacing : ℝ) (hs : 0 < spacing) :
    List.Pairwise (· < ·) (grid_lats bbox spacing) := by
  rw [grid_lats, List.pairwise_map]
  refine List.Pairwise.imp ?_ (List.pairwise_lt_range _)
  intro i j hij
  have : (i : ℝ) < (j : ℝ) := by exact_mod_cast hij
  nlinarith

theorem grid_lngs_sorted (bbox : BBox) (spacing : ℝ) (hs : 0 < spacing) :
    List.Pairwise (· < ·) (grid_lngs bbox spacing) := by
  rw [grid_lngs, List.pairwise_map]
  refine List.Pairwise.imp ?_ (List.pairwise_lt_range _)
  intro i j hij
  have : (i : ℝ) < (j : ℝ) := by exact_mod_cast hij
  nlinarith

theorem grid_risk_row_major (pivots : List Pivot) (field : List RainfallSample)
    (bbox : BBox) (spacing : ℝ) (hs : 0 < spacing) :
    List.Pairwise hm_lt (grid_risk pivots field bbox spacing) := by
  rw [grid_risk, List.pairwise_flatMap]
  constructor
  · intro la _
    rw [List.pairwise_filterMap]
    refine List.Pairwise.imp ?_ (grid_lngs_sorted bbox spacing hs)
    intro ln1 ln2 h12 b hb b' hb'
    obtain ⟨hb1, hb2, _, _⟩ := grid_cell_some pivots field la ln1 b hb
    obtain ⟨hb1', hb2', _, _⟩ := grid_cell_some pivots field la ln2 b' hb'
    right
    exact ⟨by rw [hb1, hb1'], by rw [hb2, hb2']; exact h12⟩
  · refine List.Pairwise.imp ?_ (grid_lats_sorted bbox spacing hs)
    intro la1 la2 h12 x hx y hy
    obtain ⟨ln1, _, hc1⟩ := List.mem_filterMap.mp hx
    obtain ⟨ln2, _, hc2⟩ := List.mem_filterMap.mp hy
    obtain ⟨h1, _, _, _⟩ := grid_cell_some pivots field la1 ln1 x hc1
    obtain ⟨h2, _, _, _⟩ := grid_cell_some pivots field la2 ln2 y hc2
    left
    rw [h1, h2]
    exact h12

theorem grid_risk_empty_pivots (field : List RainfallSample) (bbox : BBox)
    (spacing : ℝ) : grid_risk [] field bbox spacing = [] := by
  rw [grid_risk, List.flatMap_eq_nil_iff]
  intro la _
  rw [List.filterMap_eq_nil_iff]
  intro ln _
  rw [grid_cell, if_neg]
  rw [point_risk, preference_nil, zero_mul]
  norm_num

theorem grid_risk_intensity_le_one (pivots : List Pivot)
    (field : List RainfallSample) (bbox : BBox) (spacing : ℝ)
    (hsev : ∀ pv ∈ pivots, 0 ≤ pv.severity ∧ pv.severity ≤ 1)
    (hmm : ∀ s ∈ field, 0 ≤ s.accumulated_mm) (hp : HeatmapPoint)
    (h : hp ∈ grid_risk pivots field bbox spacing) : hp.intensity ≤ 1 := by
  obtain ⟨_, h2⟩ := grid_risk_mem pivots field bbox spacing hp h
  rw [h2]
  exact point_risk_le_one pivots field _ hsev hmm

/-! ### Exclusion geometry builder -/

/-- A candidate avoid-polygon: modelled as an axis-aligned box, the buffered
region around one high-preference pivot. -/
structure AvoidBox where
  lat_min : ℝ
  lat_max : ℝ
  lng_min : ℝ
  lng_max : ℝ

/-- A point lies strictly inside an avoid-polygon. -/
def encloses (b : AvoidBox) (x : LatLng) : Prop :=
  b.lat_min < x.lat ∧ x.lat < b.lat_max ∧ b.lng_min < x.lng ∧ x.lng < b.lng_max

noncomputable instance (b : AvoidBox) (x : LatLng) : Decidable (encloses b x) := by
  unfold encloses
  infer_instance

/-- The buffered box around one pivot, proportional to `scale` and clipped
to the service bounding box. -/
noncomputable def pivot_box (pv : Pivot) (scale : ℝ) (service : BBox) : AvoidBox :=
  ⟨max service.lat_min (pv.lat - scale * 0.01),
   min service.lat_max (pv.lat + scale * 0.01),
   max service.lng_min (pv.lng - scale * 0.01),
   min service.lng_max (pv.lng + scale * 0.01)⟩

/-- Modelled from the spec: `_make_avoid_polygon_smart` of `backend/main.py`
is not under `src/`; per §4.5 the builder buffers the pivots whose severity
reaches the tier threshold by an amount proportional to the scale factor,
clips to the service box, and drops any candidate polygon that would
enclose the requested origin or destination. -/
noncomputable def build_exclusion_geometry (pivots : List Pivot)
    (threshold scale : ℝ) (service : BBox) (origin dest : LatLng) :
    List AvoidBox :=
  pivots.filterMap fun pv =>
    if threshold ≤ pv.severity then
      if encloses (pivot_box pv scale service) origin ∨
          encloses (pivot_box pv scale service) dest
      then none
      else some (pivot_box pv scale service)
    else none

/-! ### Wire-level response shapes, from `frontend/src/types.ts` -/

/-- `RouteId` of `frontend/src/types.ts`: the union type
`"fastest" | "safer" | "safest"`. -/
inductive RouteId where
  | fastest
  | safer
  | safest
deriving DecidableEq

/-- The string literal each `RouteId` alternative denotes. -/
def RouteId.str : RouteId → String
  | .fastest => "fastest"
  | .safer => "safer"
  | .safest => "safest"

/-- `Route` of `frontend/src/types.ts`: the wire-level route object.
Optional TypeScript fields (`score?`, `explanation?`) become `Option`. -/
structure Route where
  id : RouteId
  label : String
  color : String
  distance_m : ℝ
  duration_s : ℝ
  risk_score : ℝ
  score : Option ℝ
  explanation : Option String
  coordinates : List LatLng

/-- `RoutesResponse` of `frontend/src/types.ts`. -/
structure RoutesResponse where
  routes : List Route
  heatmap_points : List HeatmapPoint

/-- The three route objects of the documented `POST /api/routes` response
(ids, labels, colors as given in the design document's response example). -/
noncomputable def response_routes_example : List Route :=
  [⟨.fastest, "Fastest Route", "#1E88E5", 12500, 1200, 0.35, none, none, []⟩,
   ⟨.safer, "Balanced Route", "#43A047", 13200, 1320, 0.22, none, none, []⟩,
   ⟨.safest, "Safest Route", "#F4511E", 14100, 1450, 0.12, none, none, []⟩]

/-! ### Monotonicity of the preference surface in distance -/

theorem preference_anti_distance (pivots : List Pivot) (p q : LatLng)
    (hsev : ∀ pv ∈ pivots, 0 ≤ pv.severity)
    (hd : ∀ pv ∈ pivots, haversine_km p pv.loc ≤ haversine_km q pv.loc) :
    preference pivots q ≤ preference pivots p := by
  induction pivots with
  | nil => exact le_refl 0
  | cons pv l ih =>
      rw [preference_cons, preference_cons]
      refine max_le_max ?_
        (ih (fun r hr => hsev r (List.mem_cons_of_mem pv hr))
          (fun r hr => hd r (List.mem_cons_of_mem pv hr)))
      simp only [pivot_contrib]
      refine mul_le_mul_of_nonneg_left ?_ (hsev pv (List.mem_cons_self pv l))
      rw [Real.exp_le_exp]
      have h := hd pv (List.mem_cons_self pv l)
      simp only [SPREAD_FACTOR_KM]
      linarith

/-! ### Concrete fixture data for witnesses and counterexamples -/

/-- The Hindmata pivot of `backend/data/flood_pivots.csv` (severity 0.95). -/
noncomputable def hindmata : Pivot := ⟨19.0056, 72.8417, 0.95, "Hindmata"⟩

/-- The default Mumbai center coordinate used by the frontend. -/
noncomputable def mumbai_center : LatLng := ⟨19.076, 72.8777⟩

/-- The Mumbai heatmap bounding box of the design document. -/
noncomputable def mumbai_bbox : BBox := ⟨18.9, 19.525, 72.75, 73.225⟩

/-- A low-severity pivot placed at the Hindmata coordinate. -/
noncomputable def pivot_low : Pivot := ⟨19.0056, 72.8417, 0.1, "MinorSpot"⟩

/-- A high-severity pivot at the same coordinate as `pivot_low`. -/
noncomputable def pivot_high : Pivot := ⟨19.0056, 72.8417, 0.95, "MajorSpot"⟩

/-! ### The claims -/

/-- Claim C1: for every query point and every loaded pivot set, the
preference at the point is the maximum over all pivots of
`severity_i * exp (-haversine_km(point, pivot_i) / spread_km)` with
`spread_km = 2.0` (stated as: every pivot's decay term is a lower bound,
and for a nonempty set the value is attained at some pivot), and for the
empty pivot set the preference is `0` at every point. -/
theorem claim_preference_is_max_decay (pivots : List Pivot) (x : LatLng)
    (hsev : ∀ pv ∈ pivots, 0 ≤ pv.severity) :
    SPREAD_FACTOR_KM = 2 ∧
    preference [] x = 0 ∧
    (∀ pv ∈ pivots,
      pv.severity * Real.exp (-(haversine_km x pv.loc) / SPREAD_FACTOR_KM) ≤
        preference pivots x) ∧
    (pivots ≠ [] → ∃ pv ∈ pivots,
      preference pivots x =
        pv.severity * Real.exp (-(haversine_km x pv.loc) / SPREAD_FACTOR_KM)) := by
  refine ⟨rfl, preference_nil x, ?_, ?_⟩
  · intro pv hpv
    exact pivot_contrib_le_preference pivots x pv hpv
  · intro hne
    exact preference_attained pivots x hne hsev

theorem claim_preference_is_max_decay_witness :
    (∀ pv ∈ [hindmata], 0 ≤ pv.severity) ∧
    ([hindmata] ≠ [] → ∃ pv ∈ [hindmata],
      preference [hindmata] mumbai_center =
        pv.severity *
          Real.exp (-(haversine_km mumbai_center pv.loc) / SPREAD_FACTOR_KM)) := by
  have hsev : ∀ pv ∈ [hindmata], 0 ≤ pv.severity := by
    intro pv hpv
    rw [List.mem_singleton] at hpv
    subst hpv
    norm_num [hindmata]
  exact ⟨hsev,
    (claim_preference_is_max_decay [hindmata] mumbai_center hsev).2.2.2⟩

/-- Clamp form of the rainfall factor: for positive rainfall the code's
`min(mm/100, 1)`-then-power form agrees with the spec's
"`0.1 + 0.9 * (mm/100)^0.6` clamped to a maximum of 1". -/
theorem rainfall_factor_clamp_form (mm : ℝ) (h : 0 < mm) :
    rainfall_factor mm = min 1 (0.1 + 0.9 * (mm / 100) ^ (0.6 : ℝ)) := by
  rw [rainfall_factor_pos_eq mm h]
  rcases le_or_lt mm 100 with hle | hgt
  · have h1 : min (mm / 100) 1 = mm / 100 := min_eq_left (by linarith)
    have h2 : (mm / 100) ^ (0.6 : ℝ) ≤ 1 :=
      Real.rpow_le_one (by positivity) (by linarith) (by norm_num)
    rw [h1, min_eq_right (by nlinarith)]
  · have h1 : min (mm / 100) 1 = 1 := min_eq_right (by linarith)
    have h2 : (1:ℝ) ≤ (mm / 100) ^ (0.6 : ℝ) := by
      rw [show (1:ℝ) = (1:ℝ) ^ (0.6:ℝ) from (Real.one_rpow _).symm]
      exact Real.rpow_le_rpow (by norm_num) (by linarith) (by norm_num)
    rw [h1, Real.one_rpow, min_eq_left (by nlinarith)]
    norm_num

/-- Claim C2: the rainfall factor sends `0` to `0.1`, positive rainfall to
`0.1 + 0.9 * (mm/100)^0.6` clamped to a maximum of `1`, saturates at `1`
from `100 mm` on, stays in `[0.1, 1]` for nonnegative rainfall, and is
monotone non-decreasing on nonnegative rainfall. -/
theorem claim_rainfall_factor_policy :
    rainfall_factor 0 = 0.1 ∧
    (∀ mm : ℝ, 0 < mm →
      rainfall_factor mm = min 1 (0.1 + 0.9 * (mm / 100) ^ (0.6 : ℝ))) ∧
    rainfall_factor 100 = 1 ∧
    (∀ mm : ℝ, 100 ≤ mm → rainfall_factor mm = rainfall_factor 100) ∧
    (∀ mm : ℝ, 0 ≤ mm → 0.1 ≤ rainfall_factor mm ∧ rainfall_factor mm ≤ 1) ∧
    (∀ a b : ℝ, 0 ≤ a → a ≤ b → rainfall_factor a ≤ rainfall_factor b) := by
  refine ⟨rainfall_factor_zero, rainfall_factor_clamp_form, rainfall_factor_hundred,
    ?_, ?_, rainfall_factor_mono⟩
  · intro mm h
    rw [rainfall_factor_saturates mm h, rainfall_factor_hundred]
  · intro mm h
    exact ⟨rainfall_factor_ge mm h, rainfall_factor_le_one mm h⟩

theorem claim_rainfall_factor_policy_witness :
    (0:ℝ) ≤ 20 ∧ (20:ℝ) ≤ 100 ∧ (100:ℝ) ≤ 250 ∧
    rainfall_factor 20 ≤ rainfall_factor 100 ∧
    rainfall_factor 250 = rainfall_factor 100 :=
  ⟨by norm_num, by norm_num, by norm_num,
    claim_rainfall_factor_policy.2.2.2.2.2 20 100 (by norm_num) (by norm_num),
    claim_rainfall_factor_policy.2.2.2.1 250 (by norm_num)⟩

/-- Claim C3: the point risk is the product of the preference and the
rainfall factor of the nearest sample, and (for severities clamped to
`[0,1]` and nonnegative rainfall samples) it always lies in `[0,1]`. -/
theorem claim_point_risk_product (pivots : List Pivot)
    (field : List RainfallSample) (x : LatLng)
    (hsev : ∀ pv ∈ pivots, 0 ≤ pv.severity ∧ pv.severity ≤ 1)
    (hmm : ∀ s ∈ field, 0 ≤ s.accumulated_mm) :
    point_risk pivots field x =
      preference pivots x * rainfall_factor (sample_at field x) ∧
    0 ≤ point_risk pivots field x ∧ point_risk pivots field x ≤ 1 :=
  ⟨rfl, point_risk_nonneg pivots field x hmm,
    point_risk_le_one pivots field x hsev hmm⟩

theorem claim_point_risk_product_witness :
    (∀ pv ∈ [hindmata], 0 ≤ pv.severity ∧ pv.severity ≤ 1) ∧
    0 ≤ point_risk [hindmata] [] mumbai_center ∧
    point_risk [hindmata] [] mumbai_center ≤ 1 := by
  have hsev : ∀ pv ∈ [hindmata], 0 ≤ pv.severity ∧ pv.severity ≤ 1 := by
    intro pv hpv
    rw [List.mem_singleton] at hpv
    subst hpv
    constructor <;> norm_num [hindmata]
  have hmm : ∀ s ∈ ([] : List RainfallSample), 0 ≤ s.accumulated_mm := by
    intro s hs
    cases hs
  exact ⟨hsev,
    (claim_point_risk_product [hindmata] [] mumbai_center hsev hmm).2⟩

/-- Claim C4 counterexample: the claim asserts that the preference at a
pivot's exact coordinate equals that pivot's severity even when a more
severe pivot lies close by.  With a severity-0.95 pivot at distance 0 from
a severity-0.1 pivot, the preference at the latter's coordinate is 0.95,
not its severity 0.1, so the claim as stated is false. -/
theorem claim_pref_at_pivot_counterexample :
    pivot_low.severity < pivot_high.severity ∧
    haversine_km pivot_low.loc pivot_high.loc = 0 ∧
    preference [pivot_low, pivot_high] pivot_low.loc ≠ pivot_low.severity := by
  have hx : haversine_km pivot_low.loc pivot_high.loc = 0 := by
    have hloc : pivot_low.loc = pivot_high.loc := rfl
    rw [hloc]
    exact haversine_km_self _
  have h1 : pivot_contrib pivot_low.loc pivot_low = 0.1 := by
    simp only [pivot_contrib, haversine_km_self, neg_zero, zero_div, Real.exp_zero,
      mul_one]
    norm_num [pivot_low]
  have h2 : pivot_contrib pivot_low.loc pivot_high = 0.95 := by
    simp only [pivot_contrib, hx, neg_zero, zero_div, Real.exp_zero, mul_one]
    norm_num [pivot_high]
  have hpref : preference [pivot_low, pivot_high] pivot_low.loc = 0.95 := by
    rw [preference_cons, preference_cons, preference_nil, h1, h2]
    norm_num
  refine ⟨by norm_num [pivot_low, pivot_high], hx, ?_⟩
  rw [hpref]
  norm_num [pivot_low]

/-- Claim C4 (amended): the preference at a pivot's exact coordinate equals
that pivot's severity whenever the pivot's severity is maximal in the
loaded set (in particular when no more severe pivot is nearby); a more
severe pivot close by raises the value above the pivot's severity. -/
theorem claim_pref_at_pivot_amended (pivots : List Pivot) (pv : Pivot)
    (hmem : pv ∈ pivots) (hsev : ∀ q ∈ pivots, 0 ≤ q.severity)
    (hmax : ∀ q ∈ pivots, q.severity ≤ pv.severity) :
    preference pivots pv.loc = pv.severity := by
  apply le_antisymm
  · refine preference_le pivots pv.loc pv.severity (hsev pv hmem) ?_
    intro q hq
    exact le_trans (pivot_contrib_le_severity pv.loc q (hsev q hq)) (hmax q hq)
  · have h := pivot_contrib_le_preference pivots pv.loc pv hmem
    have hcontrib : pivot_contrib pv.loc pv = pv.severity := by
      simp only [pivot_contrib, haversine_km_self, neg_zero, zero_div,
        Real.exp_zero, mul_one]
    linarith

theorem claim_pref_at_pivot_amended_witness :
    hindmata ∈ [hindmata] ∧
    preference [hindmata] hindmata.loc = hindmata.severity := by
  have hmem : hindmata ∈ [hindmata] := List.mem_singleton.mpr rfl
  have hsev : ∀ q ∈ [hindmata], 0 ≤ q.severity := by
    intro q hq
    rw [List.mem_singleton] at hq
    subst hq
    norm_num [hindmata]
  have hmax : ∀ q ∈ [hindmata], q.severity ≤ hindmata.severity := by
    intro q hq
    rw [List.mem_singleton] at hq
    subst hq
    exact le_refl _
  exact ⟨hmem, claim_pref_at_pivot_amended [hindmata] hindmata hmem hsev hmax⟩

/-- Claim C5: route risk (mean point risk over the fixed budget of 100
evenly-arc-length-spaced downsampled points) is invariant to inserting a
duplicate consecutive coincident coordinate anywhere in the geometry. -/
theorem claim_route_risk_dup_invariant (pivots : List Pivot)
    (field : List RainfallSample) (xs : List LatLng) (p : LatLng)
    (ys : List LatLng) :
    compute_route_risk pivots field (xs ++ p :: p :: ys) =
      compute_route_risk pivots field (xs ++ p :: ys) :=
  compute_route_risk_dup pivots field xs p ys

/-- Claim C6: every heatmap point emitted by `grid_risk` has intensity
strictly above the visibility threshold 0.05 and at most 1, the emitted
lattice points appear in row-major order (strictly ascending latitude, then
strictly ascending longitude), and with an empty pivot set `grid_risk`
returns no points for any bounding box. -/
theorem claim_grid_risk_spec (pivots : List Pivot)
    (field : List RainfallSample) (bbox : BBox) (spacing : ℝ)
    (hs : 0 < spacing)
    (hsev : ∀ pv ∈ pivots, 0 ≤ pv.severity ∧ pv.severity ≤ 1)
    (hmm : ∀ s ∈ field, 0 ≤ s.accumulated_mm) :
    (∀ hp ∈ grid_risk pivots field bbox spacing,
      0.05 < hp.intensity ∧ hp.intensity ≤ 1) ∧
    List.Pairwise hm_lt (grid_risk pivots field bbox spacing) ∧
    grid_risk [] field bbox spacing = [] := by
  refine ⟨?_, grid_risk_row_major pivots field bbox spacing hs,
    grid_risk_empty_pivots field bbox spacing⟩
  intro hp h
  exact ⟨(grid_risk_mem pivots field bbox spacing hp h).1,
    grid_risk_intensity_le_one pivots field bbox spacing hsev hmm hp h⟩

theorem claim_grid_risk_spec_witness :
    (0:ℝ) < 0.015 ∧
    List.Pairwise hm_lt (grid_risk [hindmata] [] mumbai_bbox 0.015) ∧
    grid_risk [] ([] : List RainfallSample) mumbai_bbox 0.015 = [] := by
  have hs : (0:ℝ) < 0.015 := by norm_num
  have hsev : ∀ pv ∈ [hindmata], 0 ≤ pv.severity ∧ pv.severity ≤ 1 := by
    intro pv hpv
    rw [List.mem_singleton] at hpv
    subst hpv
    constructor <;> norm_num [hindmata]
  have hmm : ∀ s ∈ ([] : List RainfallSample), 0 ≤ s.accumulated_mm := by
    intro s hs'
    cases hs'
  have h := claim_grid_risk_spec [hindmata] [] mumbai_bbox 0.015 hs hsev hmm
  exact ⟨hs, h.2.1, h.2.2⟩

/-- Claim C7: the exclusion geometry builder never returns a polygon that
encloses the requested origin or destination — every candidate that would
is dropped for the request. -/
theorem claim_exclusion_never_encloses (pivots : List Pivot)
    (threshold scale : ℝ) (service : BBox) (origin dest : LatLng)
    (b : AvoidBox)
    (hb : b ∈ build_exclusion_geometry pivots threshold scale service origin dest) :
    ¬ encloses b origin ∧ ¬ encloses b dest := by
  rw [build_exclusion_geometry] at hb
  rcases List.mem_filterMap.mp hb with ⟨pv, _, hcell⟩
  by_cases h1 : threshold ≤ pv.severity
  · rw [if_pos h1] at hcell
    by_cases h2 : encloses (pivot_box pv scale service) origin ∨
        encloses (pivot_box pv scale service) dest
    · rw [if_pos h2] at hcell
      cases hcell
    · rw [if_neg h2] at hcell
      cases hcell
      push_neg at h2
      exact h2
  · rw [if_neg h1] at hcell
    cases hcell

/-- Fixture service box for the exclusion-builder witness. -/
noncomputable def unit_service : BBox := ⟨0, 1, 0, 1⟩

/-- Fixture pivot at the center of `unit_service`. -/
noncomputable def center_pivot : Pivot := ⟨0.5, 0.5, 1, "Center"⟩

theorem claim_exclusion_never_encloses_witness :
    pivot_box center_pivot 1 unit_service ∈
      build_exclusion_geometry [center_pivot] 0 1 unit_service ⟨0, 0⟩ ⟨1, 1⟩ ∧
    ¬ encloses (pivot_box center_pivot 1 unit_service) ⟨0, 0⟩ ∧
    ¬ encloses (pivot_box center_pivot 1 unit_service) ⟨1, 1⟩ := by
  have hbox : pivot_box center_pivot 1 unit_service = ⟨0.49, 0.51, 0.49, 0.51⟩ := by
    rw [pivot_box]
    norm_num [center_pivot, unit_service, max_def, min_def]
  have hno : ¬(encloses (pivot_box center_pivot 1 unit_service) ⟨0, 0⟩ ∨
      encloses (pivot_box center_pivot 1 unit_service) ⟨1, 1⟩) := by
    rw [hbox]
    rintro (h | h) <;> · norm_num [encloses] at h
  have hbuild : build_exclusion_geometry [center_pivot] 0 1 unit_service ⟨0, 0⟩ ⟨1, 1⟩
      = [pivot_box center_pivot 1 unit_service] := by
    rw [build_exclusion_geometry, List.filterMap_cons]
    rw [if_pos (by norm_num [center_pivot] : (0:ℝ) ≤ center_pivot.severity)]
    rw [if_neg hno, List.filterMap_nil]
  have hmem : pivot_box center_pivot 1 unit_service ∈
      build_exclusion_geometry [center_pivot] 0 1 unit_service ⟨0, 0⟩ ⟨1, 1⟩ := by
    rw [hbuild]
    exact List.mem_singleton.mpr rfl
  have h := claim_exclusion_never_encloses [center_pivot] 0 1 unit_service
    ⟨0, 0⟩ ⟨1, 1⟩ (pivot_box center_pivot 1 unit_service) hmem
  exact ⟨hmem, h.1, h.2⟩

/-- Claim C8 counterexample: the claim asserts that the route-risk result
of an empty geometry carries an explicit "insufficient data" flag distinct
from a genuinely low score.  The engine's result is a bare score (and the
wire `Route` record carries no such field): the empty geometry yields
exactly the same result value `0` as a genuinely risk-free nonempty
geometry, so no flag distinguishes the two. -/
theorem claim_route_risk_flag_counterexample :
    compute_route_risk [] [] [] = 0 ∧
    compute_route_risk [] [] [mumbai_center] = 0 ∧
    compute_route_risk [] [] [] = compute_route_risk [] [] [mumbai_center] := by
  have h2 : compute_route_risk [] [] [mumbai_center] = 0 := by
    rw [compute_route_risk_cons]
    have hall : ∀ r ∈ (downsampled [mumbai_center] 100).map (point_risk [] []),
        r = 0 := by
      intro r hr
      obtain ⟨x, _, hx⟩ := List.mem_map.mp hr
      rw [← hx]
      simp only [point_risk, preference_nil, zero_mul]
    rw [mean, List.sum_eq_zero hall, zero_div]
  exact ⟨rfl, h2, by rw [h2]; rfl⟩

/-- Claim C8 (amended): route risk of a geometry with zero points is 0; the
result itself is a bare score — the wire `Route` record consists of exactly
its nine declared fields and carries no "insufficient data" flag — so the
caller, not the result, must flag the empty-geometry case as "no data". -/
theorem claim_route_risk_empty_amended :
    (∀ (pivots : List Pivot) (field : List RainfallSample),
      compute_route_risk pivots field [] = 0) ∧
    (∀ rt : Route, rt = ⟨rt.id, rt.label, rt.color, rt.distance_m,
      rt.duration_s, rt.risk_score, rt.score, rt.explanation,
      rt.coordinates⟩) :=
  ⟨fun pivots field => compute_route_risk_nil pivots field, fun _ => rfl⟩

/-- Claim C9: holding the rainfall factor fixed, final risk is monotone
non-increasing in distance from every pivot held fixed: if every pivot is
at least as far from `q` as from `p`, the risk at `q` is at most the risk
at `p`. -/
theorem claim_risk_monotone_distance (pivots : List Pivot) (p q : LatLng)
    (mm : ℝ) (hsev : ∀ pv ∈ pivots, 0 ≤ pv.severity) (hmm : 0 ≤ mm)
    (hd : ∀ pv ∈ pivots, haversine_km p pv.loc ≤ haversine_km q pv.loc) :
    preference pivots q * rainfall_factor mm ≤
      preference pivots p * rainfall_factor mm := by
  have hrf : 0 ≤ rainfall_factor mm :=
    le_trans (by norm_num) (rainfall_factor_ge mm hmm)
  exact mul_le_mul_of_nonneg_right
    (preference_anti_distance pivots p q hsev hd) hrf

theorem claim_risk_monotone_distance_witness :
    (∀ pv ∈ [hindmata], 0 ≤ pv.severity) ∧ (0:ℝ) ≤ 0 ∧
    preference [hindmata] mumbai_center * rainfall_factor 0 ≤
      preference [hindmata] mumbai_center * rainfall_factor 0 := by
  have hsev : ∀ pv ∈ [hindmata], 0 ≤ pv.severity := by
    intro pv hpv
    rw [List.mem_singleton] at hpv
    subst hpv
    norm_num [hindmata]
  have hd : ∀ pv ∈ [hindmata],
      haversine_km mumbai_center pv.loc ≤ haversine_km mumbai_center pv.loc :=
    fun pv _ => le_refl _
  exact ⟨hsev, le_refl 0,
    claim_risk_monotone_distance [hindmata] mumbai_center mumbai_center 0
      hsev (le_refl 0) hd⟩

/-- Claim C10: at the public interface, every route id is one of exactly
the three string literals "fastest", "safer", "safest" (never "balanced" —
the balanced route of the documented response carries id "safer" and label
"Balanced Route"), every route object consists of exactly the declared
fields (id, label, color, distance_m, duration_s, risk_score, optional
score and explanation, coordinates), and every heatmap point consists of
exactly lat, lng, intensity. -/
theorem claim_api_shape :
    (∀ rid : RouteId,
      rid.str = "fastest" ∨ rid.str = "safer" ∨ rid.str = "safest") ∧
    (∀ rid : RouteId, rid.str ≠ "balanced") ∧
    response_routes_example.map (fun rt => rt.id.str) =
      ["fastest", "safer", "safest"] ∧
    response_routes_example.map (fun rt => rt.label) =
      ["Fastest Route", "Balanced Route", "Safest Route"] ∧
    (∀ rt : Route, rt = ⟨rt.id, rt.label, rt.color, rt.distance_m,
      rt.duration_s, rt.risk_score, rt.score, rt.explanation,
      rt.coordinates⟩) ∧
    (∀ hp : HeatmapPoint, hp = ⟨hp.lat, hp.lng, hp.intensity⟩) := by
  refine ⟨?_, ?_, rfl, rfl, fun _ => rfl, fun _ => rfl⟩
  · intro rid
    cases rid
    · exact Or.inl rfl
    · exact Or.inr (Or.inl rfl)
    · exact Or.inr (Or.inr rfl)
  · intro rid h
    cases rid <;> exact absurd h (by decide)

end OptiRoute
